import Mathlib

/-!
Shallow embedding of the MMLU evaluation harness (`src/module.py`, `src/eval.py`).

External collaborators (the HuggingFace tokenizer, the torch model forward
pass) are modelled as function parameters.  Machine floats are modelled as
rationals; the transcendental `exp` used by torch softmax is a function
parameter of the embedding.  The helper module `utils.py` and the static
taxonomy `categories.py` are part of the repository but not under `src/`;
the definitions taken from them are modelled from the spec and say so in
their doc comments.
-/

namespace MMLU

/-- Character-list matcher: does `pat` occur at the head of `hay`? -/
def matchAt : List Char → List Char → Bool
  | [], _ => true
  | _ :: _, [] => false
  | p :: ps, c :: cs => p == c && matchAt ps cs

/-- Does `pat` occur anywhere inside `hay`? -/
def hasSub : List Char → List Char → Bool
  | pat, [] => pat.isEmpty
  | pat, c :: cs => matchAt pat (c :: cs) || hasSub pat cs

/-- Python's `needle in hay` substring test on strings. -/
def strContainsSub (hay needle : String) : Bool :=
  hasSub needle.toList hay.toList

/-- `"alpaca" in self.model_name` — the instruction-tuned family test
(`src/module.py`, used at lines 30, 56, 183, 198). -/
def isAlpaca (model_name : String) : Bool :=
  strContainsSub model_name "alpaca"

/-- Python's `str.strip()`: remove whitespace from both ends (written with
structural list recursion so that concrete instances evaluate). -/
def pyStrip (s : String) : String :=
  ⟨((s.data.dropWhile Char.isWhitespace).reverse.dropWhile
      Char.isWhitespace).reverse⟩

/-- `input_ids[0]`: the first sub-token id of a tokenization. -/
def firstId (ids : List Nat) : Nat := ids.headD 0

/-- `input_ids[-1]`: the last sub-token id of a tokenization. -/
def lastId (ids : List Nat) : Nat := ids.getLastD 0

/-- `torch.nn.functional.softmax` over the reals, embedded over `ℚ` with the
exponential supplied as a parameter `e` (floats carry no exact `exp`). -/
def softmax (e : ℚ → ℚ) (v : List ℚ) : List ℚ :=
  let s := (v.map e).sum
  v.map fun x => e x / s

/-- Auxiliary scan for `np.argmax`: keep the current best index unless a
strictly greater value appears (so the first maximum wins). -/
def argmaxAux : List ℚ → Nat → Nat → ℚ → Nat
  | [], _, best, _ => best
  | x :: xs, i, best, bv =>
    if bv < x then argmaxAux xs (i + 1) i x else argmaxAux xs (i + 1) best bv

/-- `np.argmax`: index of the first maximal element (0 on the empty list,
which never arises: the code only applies it to four-element lists). -/
def argmax : List ℚ → Nat
  | [] => 0
  | x :: xs => argmaxAux xs 1 0 x

/-- The dict `{0: "A", 1: "B", 2: "C", 3: "D"}` of `src/module.py` line 73;
any other key would be a `KeyError`, modelled as `"?"` (unreachable: `argmax`
of a four-element list is `< 4`). -/
def letterOf : Nat → String
  | 0 => "A"
  | 1 => "B"
  | 2 => "C"
  | 3 => "D"
  | _ => "?"

/-- The four logit values gathered at the token ids of `"A"`,`"B"`,`"C"`,`"D"`
(`src/module.py` lines 44-47 with `input_ids[0]`, lines 61-64 with
`input_ids[-1]` when `last` is true).  `tok` is the tokenizer's
`input_ids` map; `logit` is the vocabulary row. -/
def gatherVec (tok : String → List Nat) (last : Bool) (logit : List ℚ) : List ℚ :=
  [logit.getD ((if last then lastId else firstId) (tok "A")) 0,
   logit.getD ((if last then lastId else firstId) (tok "B")) 0,
   logit.getD ((if last then lastId else firstId) (tok "C")) 0,
   logit.getD ((if last then lastId else firstId) (tok "D")) 0]

/-- Lines 40-72 of `src/module.py`: the probabilities are first computed from
the first sub-token ids, then recomputed from the last sub-token ids when the
model is in the alpaca family. -/
def gatherProbs (e : ℚ → ℚ) (tok : String → List Nat) (alpaca : Bool)
    (logit : List ℚ) : List ℚ :=
  let probs := softmax e (gatherVec tok false logit)
  if alpaca then softmax e (gatherVec tok true logit) else probs

/-- Line 73 of `src/module.py`: the predicted letter for one example. -/
def predOf (e : ℚ → ℚ) (tok : String → List Nat) (alpaca : Bool)
    (logit : List ℚ) : String :=
  letterOf (argmax (gatherProbs e tok alpaca logit))

/-- `logits[:, -1, :]` (alpaca) or `logits[:, 0, :]` for one example's
(sequence × vocab) block — `src/module.py` lines 30-33. -/
def selectPos (alpaca : Bool) (ex : List (List ℚ)) : List ℚ :=
  if alpaca then ex.getLastD [] else ex.headD []

/-- The mutable state of `LogitAccuracy`: the two counter tensors and the two
prediction/gold lists (`src/module.py` lines 20-24). -/
structure MetricState where
  total : Nat
  correct : Nat
  all_preds : List String
  all_golds : List String
deriving Repr, DecidableEq

/-- The per-example `for` loop of `LogitAccuracy.update` (lines 37-75):
starting at index `i`, walk the selected logit rows, predict a letter for
each, and compare it with `labels[i]` after stripping; returns the number of
matches and the list of predictions in order. -/
def scanExamples (e : ℚ → ℚ) (tok : String → List Nat) (alpaca : Bool)
    (labels : List String) : List (List ℚ) → Nat → Nat × List String
  | [], _ => (0, [])
  | row :: rest, i =>
    let pred := predOf e tok alpaca row
    let hit := if pyStrip pred == pyStrip (labels.getD i "") then 1 else 0
    let r := scanExamples e tok alpaca labels rest (i + 1)
    (hit + r.1, pred :: r.2)

/-- `LogitAccuracy.update` (`src/module.py` lines 26-78).  `decode` models
`tokenizer.batch_decode` applied to one label row; `logits` is the
(batch × sequence × vocab) tensor; `labelsTok` the batch of label token rows. -/
def update (e : ℚ → ℚ) (tok : String → List Nat) (decode : List Nat → String)
    (model_name : String) (st : MetricState)
    (logits : List (List (List ℚ))) (labelsTok : List (List Nat)) : MetricState :=
  let total := st.total + logits.length
  let labels := labelsTok.map decode
  let alpaca := isAlpaca model_name
  let rows := logits.map (selectPos alpaca)
  let r := scanExamples e tok alpaca labels rows 0
  { total := total
    correct := st.correct + r.1
    all_preds := st.all_preds ++ r.2
    all_golds := st.all_golds ++ labels }

/-- A tokenized batch as handed to `test_step`: the padded input ids and the
label token rows (the other tensor fields play no role in the logic). -/
structure TokBatch where
  input_ids : List (List Nat)
  labels : List (List Nat)
deriving Repr, DecidableEq

/-- The keyword arguments of the forward call `self.model(**batch)` after
`test_step` has (or has not) popped `"labels"` from the batch dict. -/
structure ForwardInput where
  input_ids : List (List Nat)
  labels : Option (List (List Nat))
deriving Repr, DecidableEq

/-- Lines 183-186 of `src/module.py`: for alpaca-family models `labels` is
popped from the batch before the forward call; otherwise it stays in. -/
def forwardInputOf (model_name : String) (b : TokBatch) : ForwardInput :=
  if isAlpaca model_name then
    { input_ids := b.input_ids, labels := none }
  else
    { input_ids := b.input_ids, labels := some b.labels }

/-- `MMLUModel.test_step` (`src/module.py` lines 181-190): build the forward
arguments, run the model (`modelFn`, the external forward pass returning the
logits tensor), and update the metric with the logits and the popped labels. -/
def test_step (e : ℚ → ℚ) (tok : String → List Nat) (decode : List Nat → String)
    (model_name : String) (modelFn : ForwardInput → List (List (List ℚ)))
    (st : MetricState) (b : TokBatch) : MetricState :=
  let fwd := forwardInputOf model_name b
  let logits := modelFn fwd
  update e tok decode model_name st logits b.labels

/-- `on_test_start` (lines 174-179): the metric counters are reset and the
prediction/gold lists cleared before a subject's pass. -/
def resetState : MetricState :=
  { total := 0, correct := 0, all_preds := [], all_golds := [] }

/-- One full evaluation pass over a subject: fold `update` over the batches
(each batch is a logits tensor together with its label rows). -/
def runPass (e : ℚ → ℚ) (tok : String → List Nat) (decode : List Nat → String)
    (model_name : String)
    (batches : List (List (List (List ℚ)) × List (List Nat)))
    (st : MetricState) : MetricState :=
  batches.foldl (fun s b => update e tok decode model_name s b.1 b.2) st

/-! ## Prompt construction (`MMLUDataModule.prepare_data`) -/

/-- One prompt/label record of the constructed test or validation set. -/
structure Item where
  input : String
  output : String
deriving Repr, DecidableEq

/-- A subject's dev/test table: a list of rows, each row the list of cells
(question, four options, gold letter). -/
abbrev Table := List (List String)

/-- Modelled from the spec: `format_example` of `utils.py` (not under
`src/`).  Formats row `i` of a table as the question followed by the four
lettered options and an `Answer:` line, the gold letter included only when
`include_answer` is true (§4.1: examples are "formatted as
question+options+\"Answer: <letter>\"", the target question "formatted the
same way but with the answer omitted"). -/
def format_example (df : Table) (i : Nat) (include_answer : Bool) : String :=
  let row := df.getD i []
  let q := row.headD ""
  let opts :=
    "\nA. " ++ row.getD 1 "" ++ "\nB. " ++ row.getD 2 "" ++
    "\nC. " ++ row.getD 3 "" ++ "\nD. " ++ row.getD 4 ""
  q ++ opts ++ "\nAnswer:" ++
    (if include_answer then " " ++ row.getD 5 "" ++ "\n\n" else "")

/-- Modelled from the spec: the fixed subject-specific instruction sentence
opening every prompt (§4.1 (a)). -/
def promptHeader (subject : String) : String :=
  "The following are multiple choice questions (with answers) about " ++
    subject ++ ".\n\n"

/-- Modelled from the spec: `gen_prompt` of `utils.py` (not under `src/`).
The instruction header followed by the first `k` examples of the dev pool,
answers included (§4.1 (a)-(b)); a non-positive `k` contributes no examples. -/
def gen_prompt (dev : Table) (subject : String) (k : Int) : String :=
  promptHeader subject ++
    String.join ((List.range k.toNat).map fun i => format_example dev i true)

/-- The token budget: 2048 (`src/module.py` lines 113, 131). -/
def budget : Nat := 2048

/-- The truncation `while` loop of the test-set branch (`src/module.py`
lines 113-116), fuel-indexed: while the tokenized prompt exceeds the budget,
decrement `k` and rebuild the prompt from the first `k` dev examples.  `none`
means the fuel ran out with the condition still true.  Note the source has no
`k ≥ 0` floor: the only exit is the prompt fitting. -/
def truncLoop (tok : String → List Nat) (dev : Table) (subject : String)
    (promptEnd : String) : Nat → Int → String → Option (Int × String)
  | fuel, k, prompt =>
    if budget < (tok prompt).length then
      match fuel with
      | 0 => none
      | fuel + 1 =>
        truncLoop tok dev subject promptEnd fuel (k - 1)
          (gen_prompt dev subject (k - 1) ++ promptEnd)
    else some (k, prompt)

/-- The truncation `while` loop of the validation-set branch (`src/module.py`
lines 131-134), fuel-indexed: the body decrements the stale `k` but rebuilds
the prompt with the constant few-shot count `0`, so the prompt is the same
string on every iteration. -/
def devLoop (tok : String → List Nat) (dev : Table) (subject : String)
    (promptEnd : String) : Nat → Int → String → Option (Int × String)
  | fuel, k, prompt =>
    if budget < (tok prompt).length then
      match fuel with
      | 0 => none
      | fuel + 1 =>
        devLoop tok dev subject promptEnd fuel (k - 1)
          (gen_prompt dev subject 0 ++ promptEnd)
    else some (k, prompt)

/-- One iteration of the test-set `for` loop (`src/module.py` lines 106-123):
build the prompt for test row `i`, run the truncation search, and pair the
resulting prompt with the row's last cell (the gold letter).  Also returns
the final value of `k`, which Python leaves in scope for the dev loop. -/
def buildTestRow (tok : String → List Nat) (dev test : Table) (subject : String)
    (ntrain : Int) (fuel : Nat) (i : Nat) : Option (Item × Int) :=
  let promptEnd := format_example test i false
  match truncLoop tok dev subject promptEnd fuel ntrain
      (gen_prompt dev subject ntrain ++ promptEnd) with
  | none => none
  | some (k, prompt) =>
    let row := test.getD i []
    some (⟨prompt, row.getD (row.length - 1) ""⟩, k)

/-- The test-set `for` loop over all rows; threads the stale `k` through (its
value after the loop is the final `k` of the last iteration, `ntrain` when
the table is empty and the name would be undefined in Python). -/
def buildTestset (tok : String → List Nat) (dev test : Table) (subject : String)
    (ntrain : Int) (fuel : Nat) : Option (List Item × Int) :=
  (List.range test.length).foldl
    (fun acc i =>
      match acc with
      | none => none
      | some (items, _) =>
        match buildTestRow tok dev test subject ntrain fuel i with
        | none => none
        | some (item, k) => some (items ++ [item], k))
    (some ([], ntrain))

/-- One iteration of the validation-set `for` loop (`src/module.py` lines
125-141): the prompt is built with few-shot count `0` and the stale `k` is
threaded through the loop. -/
def buildValRow (tok : String → List Nat) (dev : Table) (subject : String)
    (k : Int) (fuel : Nat) (i : Nat) : Option (Item × Int) :=
  let promptEnd := format_example dev i false
  match devLoop tok dev subject promptEnd fuel k
      (gen_prompt dev subject 0 ++ promptEnd) with
  | none => none
  | some (k', prompt) =>
    let row := dev.getD i []
    some (⟨prompt, row.getD (row.length - 1) ""⟩, k')

/-- The validation-set `for` loop over all dev rows. -/
def buildValset (tok : String → List Nat) (dev : Table) (subject : String)
    (k0 : Int) (fuel : Nat) : Option (List Item) :=
  ((List.range dev.length).foldl
    (fun acc i =>
      match acc with
      | none => none
      | some (items, k) =>
        match buildValRow tok dev subject k fuel i with
        | none => none
        | some (item, k') => some (items ++ [item], k'))
    (some ([], k0))).map Prod.fst

/-- `MMLUDataModule.prepare_data` (`src/module.py` lines 101-146).  When a
prompt directory is supplied the branch raises `NotImplementedError` before
touching any data (modelled as `Except.error`); otherwise the test and
validation sets are built.  The `Option` layer is fuel exhaustion of the
truncation loops (the source loops are not guaranteed to terminate). -/
def prepare_data (tok : String → List Nat) (dev test : Table) (subject : String)
    (ntrain : Int) (prompt_dir : Option String) (fuel : Nat) :
    Except String (Option (List Item × List Item)) :=
  match prompt_dir with
  | none =>
    match buildTestset tok dev test subject ntrain fuel with
    | none => Except.ok none
    | some (testset, k) =>
      match buildValset tok dev subject k fuel with
      | none => Except.ok none
      | some valset => Except.ok (some (testset, valset))
  | some _ => Except.error "NotImplementedError"

/-! ## Batching (`MMLUDataModule.collate_fn`) -/

/-- Modelled from the spec: the external tokenizer's batched call with
`padding='longest'`, `truncation=True`, `max_length=maxLen` (§6, an external
collaborator): each text is tokenized, truncated to at most `maxLen` tokens,
and padded with `padId` to the longest sequence in the batch. -/
def hfTokenizePad (tok : String → List Nat) (padId : Nat) (maxLen : Nat)
    (texts : List String) : List (List Nat) :=
  let truncated := texts.map fun t => (tok t).take maxLen
  let longest := (truncated.map List.length).foldl max 0
  truncated.map fun ids => ids ++ List.replicate (longest - ids.length) padId

/-- `MMLUDataModule.collate_fn` (`src/module.py` lines 149-154): split the
batch into inputs and targets and tokenize both jointly with padding to the
longest sequence and truncation at `max_length=512`. -/
def collate_fn (tok : String → List Nat) (padId : Nat) (batch : List Item) :
    List (List Nat) × List (List Nat) :=
  let input_text := batch.map Item.input
  let output_text := batch.map Item.output
  (hfTokenizePad tok padId 512 input_text, hfTokenizePad tok padId 512 output_text)

/-! ## Aggregation (`src/eval.py`) -/

/-- One subject's outcome after its pass: the subject name and the metric's
`correct` and `total` counters (`src/eval.py` lines 59-60). -/
structure SubjResult where
  subject : String
  cor : Nat
  total : Nat
deriving Repr, DecidableEq

/-- The `(cor, total)` pairs one subject contributes to subcategory `sc`:
one copy per occurrence of `sc` in `subcategories[subject]` (`src/eval.py`
lines 62-64). -/
def subcatContrib (subcats : String → List String) (sc : String)
    (r : SubjResult) : List (Nat × Nat) :=
  ((subcats r.subject).filter fun s => s == sc).map fun _ => (r.cor, r.total)

/-- The list `subcat_cors[sc]` after the subject loop of `src/eval.py`
(lines 45-68): each subject appends its pair once per matching subcategory. -/
def subcatEntries (subcats : String → List String) (results : List SubjResult)
    (sc : String) : List (Nat × Nat) :=
  results.foldl (fun acc r => acc ++ subcatContrib subcats sc r) []

/-- The `(cor, total)` pairs one subject contributes to category `key`:
one copy per subcategory of the subject lying in `categories[key]`
(`src/eval.py` lines 65-67). -/
def catContrib (subcats : String → List String) (cats : String → List String)
    (key : String) (r : SubjResult) : List (Nat × Nat) :=
  ((subcats r.subject).filter fun sc => (cats key).contains sc).map
    fun _ => (r.cor, r.total)

/-- The list `cat_cors[key]` after the subject loop. -/
def catEntries (subcats : String → List String) (cats : String → List String)
    (results : List SubjResult) (key : String) : List (Nat × Nat) :=
  results.foldl (fun acc r => acc ++ catContrib subcats cats key r) []

/-- `sum(cors) / sum(totals)` over a list of `(cor, total)` pairs
(`src/eval.py` lines 72, 77, 81), in exact rational arithmetic. -/
def accOf (es : List (Nat × Nat)) : ℚ :=
  ((es.map fun p => (p.1 : ℚ)).sum) / ((es.map fun p => (p.2 : ℚ)).sum)

/-- The printed subcategory accuracy (`src/eval.py` lines 70-73). -/
def subcatAcc (subcats : String → List String) (results : List SubjResult)
    (sc : String) : ℚ :=
  accOf (subcatEntries subcats results sc)

/-- The printed category accuracy (`src/eval.py` lines 75-78). -/
def catAcc (subcats : String → List String) (cats : String → List String)
    (results : List SubjResult) (key : String) : ℚ :=
  accOf (catEntries subcats cats results key)

/-- The printed overall accuracy (`src/eval.py` lines 80-82): `all_cors`
holds every subject's pair once. -/
def overallAcc (results : List SubjResult) : ℚ :=
  accOf (results.map fun r => (r.cor, r.total))

/-- The arithmetic mean of the member subjects' individual accuracies — what
the aggregation is *not* (spec §4.4). -/
def meanAcc (es : List (Nat × Nat)) : ℚ :=
  (es.map fun p => ((p.1 : ℚ) / (p.2 : ℚ))).sum / (es.length : ℚ)

/-! ## Helper lemmas -/

/-- The prediction list produced by the per-example loop is the map of
`predOf` over the selected logit rows, independent of the labels. -/
lemma scanExamples_snd (e : ℚ → ℚ) (tok : String → List Nat) (a : Bool)
    (labels : List String) :
    ∀ (rows : List (List ℚ)) (i : Nat),
      (scanExamples e tok a labels rows i).2 = rows.map (predOf e tok a) := by
  intro rows
  induction rows with
  | nil => intro i; simp [scanExamples]
  | cons row rest ih => intro i; simp [scanExamples, ih]

/-- The match count of the per-example loop is the number of prediction/label
pairs (aligned by position) that agree after trimming. -/
lemma scanExamples_fst (e : ℚ → ℚ) (tok : String → List Nat) (a : Bool)
    (labels : List String) :
    ∀ (rows : List (List ℚ)) (i : Nat), i + rows.length ≤ labels.length →
      (scanExamples e tok a labels rows i).1 =
        ((rows.map (predOf e tok a)).zip (labels.drop i)).countP
          (fun p => pyStrip p.1 == pyStrip p.2) := by
  intro rows
  induction rows with
  | nil => intro i _; simp [scanExamples]
  | cons row rest ih =>
    intro i hi
    have hlt : i < labels.length := by simp at hi; omega
    have hdrop : labels.drop i = labels[i] :: labels.drop (i + 1) :=
      List.drop_eq_getElem_cons hlt
    have hgetD : labels.getD i "" = labels[i] := List.getD_eq_getElem labels "" hlt
    have hrest : (i + 1) + rest.length ≤ labels.length := by simp at hi; omega
    simp only [scanExamples, hgetD, hdrop, List.map_cons, List.zip_cons_cons,
      List.countP_cons, ih (i + 1) hrest]
    omega

/-- The match count never exceeds the number of rows. -/
lemma scanExamples_fst_le (e : ℚ → ℚ) (tok : String → List Nat) (a : Bool)
    (labels : List String) :
    ∀ (rows : List (List ℚ)) (i : Nat),
      (scanExamples e tok a labels rows i).1 ≤ rows.length := by
  intro rows
  induction rows with
  | nil => intro i; simp [scanExamples]
  | cons row rest ih =>
    intro i
    have := ih (i + 1)
    simp only [scanExamples, List.length_cons]
    split <;> omega

/-- `argmax` on a four-element list returns the position of a maximum. -/
lemma argmax4_le (a b c d x : ℚ) (hx : x ∈ [a, b, c, d]) :
    x ≤ [a, b, c, d].getD (argmax [a, b, c, d]) 0 := by
  simp only [List.mem_cons, List.not_mem_nil, or_false] at hx
  simp only [argmax, argmaxAux]
  rcases hx with rfl | rfl | rfl | rfl <;>
    split_ifs <;> simp [List.getD] <;> linarith

/-! ## Claims -/

/-- C2: `LogitAccuracy.update` increments `total` by the batch size
unconditionally, increments `correct` by the number of examples whose
predicted letter (softmax-argmax over the four gathered answer-letter
logits) equals the decoded gold letter after trimming whitespace on both
sides, and appends the predictions and gold labels to the two parallel
ordered lists; moreover `argmax` really picks a position of maximal
probability in the four-vector. -/
theorem C2_update_characterization (e : ℚ → ℚ) (tok : String → List Nat)
    (decode : List Nat → String) (model_name : String) (st : MetricState)
    (logits : List (List (List ℚ))) (labelsTok : List (List Nat))
    (h : labelsTok.length = logits.length) :
    update e tok decode model_name st logits labelsTok =
      { total := st.total + logits.length
        correct := st.correct +
          (((logits.map (selectPos (isAlpaca model_name))).map
              (predOf e tok (isAlpaca model_name))).zip
            (labelsTok.map decode)).countP (fun p => pyStrip p.1 == pyStrip p.2)
        all_preds := st.all_preds ++
          (logits.map (selectPos (isAlpaca model_name))).map
            (predOf e tok (isAlpaca model_name))
        all_golds := st.all_golds ++ labelsTok.map decode } ∧
    (∀ a b c d x : ℚ, x ∈ [a, b, c, d] →
      x ≤ [a, b, c, d].getD (argmax [a, b, c, d]) 0) := by
  constructor
  · have hlen : 0 + (logits.map (selectPos (isAlpaca model_name))).length ≤
        (labelsTok.map decode).length := by
      simp [h]
    simp only [update, MetricState.mk.injEq]
    refine ⟨trivial, ?_, ?_, trivial⟩
    · rw [scanExamples_fst e tok (isAlpaca model_name) (labelsTok.map decode)
        (logits.map (selectPos (isAlpaca model_name))) 0 hlen]
      simp
    · rw [scanExamples_snd]
  · intro a b c d x hx
    exact argmax4_le a b c d x hx

/-- C2 witness: a concrete one-example batch evaluated through the theorem. -/
theorem C2_update_characterization_witness :
    update (fun x => x) (fun _ => [0]) (fun _ => "A") "gpt"
        resetState [[[(3 : ℚ), 1, 0, 0]]] [[0]] =
      { total := 1
        correct := 1
        all_preds := ["A"]
        all_golds := ["A"] } := by
  have h := (C2_update_characterization (fun x => x) (fun _ => [0])
    (fun _ => "A") "gpt" resetState [[[(3 : ℚ), 1, 0, 0]]] [[0]] rfl).1
  rw [h]
  have hiA : isAlpaca "gpt" = false := rfl
  norm_num [hiA, predOf, gatherProbs, gatherVec, softmax, argmax, argmaxAux,
    letterOf, selectPos, firstId, resetState, List.countP, List.countP.go, pyStrip]

/-- C6: when the four gathered answer-letter logits are all equal, the
softmaxed four-vector is constant and `argmax` resolves the tie to index 0,
so the predicted letter is `"A"`. -/
theorem C6_uniform_logits_predict_A (e : ℚ → ℚ) (tok : String → List Nat)
    (alpaca : Bool) (logit : List ℚ) (x : ℚ)
    (h : gatherVec tok alpaca logit = [x, x, x, x]) :
    predOf e tok alpaca logit = "A" := by
  unfold predOf gatherProbs
  cases alpaca with
  | false =>
    rw [h]
    simp [softmax, argmax, argmaxAux, letterOf, lt_irrefl]
  | true =>
    rw [if_pos rfl, h]
    simp [softmax, argmax, argmaxAux, letterOf, lt_irrefl]

/-- C6 witness: a concrete uniform four-vector yields prediction `"A"`. -/
theorem C6_uniform_logits_predict_A_witness :
    predOf (fun x => x) (fun _ => []) false [] = "A" :=
  C6_uniform_logits_predict_A (fun x => x) (fun _ => []) false [] 0 (by decide)

/-- C7: the probability vector used for prediction is the softmax of the
four logit values at the token ids of `"A"`,`"B"`,`"C"`,`"D"`, where each
letter's id is its first sub-token id for a standard model and its last
sub-token id for an instruction-tuned (alpaca) model. -/
theorem C7_token_id_selection (e : ℚ → ℚ) (tok : String → List Nat)
    (alpaca : Bool) (logit : List ℚ) :
    gatherProbs e tok alpaca logit = softmax e (gatherVec tok alpaca logit) ∧
    gatherVec tok false logit =
      [logit.getD (firstId (tok "A")) 0, logit.getD (firstId (tok "B")) 0,
       logit.getD (firstId (tok "C")) 0, logit.getD (firstId (tok "D")) 0] ∧
    gatherVec tok true logit =
      [logit.getD (lastId (tok "A")) 0, logit.getD (lastId (tok "B")) 0,
       logit.getD (lastId (tok "C")) 0, logit.getD (lastId (tok "D")) 0] ∧
    (∀ (n : Nat) (ns : List Nat), firstId (n :: ns) = n ∧ lastId (ns ++ [n]) = n) := by
  refine ⟨?_, rfl, rfl, fun n ns => ⟨rfl, by simp [lastId]⟩⟩
  cases alpaca <;> simp [gatherProbs]

/-- C4: `test_step` removes the labels from the batch before the forward
call exactly for alpaca-family model names (they stay in otherwise), passes
the input ids through unchanged, and the predictions recorded by the metric
come from the last sequence position's logits for alpaca models and from the
first sequence position's logits for all others. -/
theorem C4_family_branching (e : ℚ → ℚ) (tok : String → List Nat)
    (decode : List Nat → String) (model_name : String)
    (modelFn : ForwardInput → List (List (List ℚ)))
    (st : MetricState) (b : TokBatch) :
    (forwardInputOf model_name b).labels =
      (if isAlpaca model_name then none else some b.labels) ∧
    (forwardInputOf model_name b).input_ids = b.input_ids ∧
    (test_step e tok decode model_name modelFn st b).all_preds =
      st.all_preds ++ (modelFn (forwardInputOf model_name b)).map
        (fun ex => predOf e tok (isAlpaca model_name)
          (if isAlpaca model_name then ex.getLastD [] else ex.headD [])) := by
  refine ⟨?_, ?_, ?_⟩
  · by_cases hA : isAlpaca model_name <;> simp [forwardInputOf, hA]
  · by_cases hA : isAlpaca model_name <;> simp [forwardInputOf, hA]
  · simp only [test_step, update, scanExamples_snd, List.map_map]
    rfl

/-- `update` adds exactly the batch size to `total`. -/
lemma update_total_eq (e : ℚ → ℚ) (tok : String → List Nat)
    (decode : List Nat → String) (mn : String) (st : MetricState)
    (logits : List (List (List ℚ))) (labs : List (List Nat)) :
    (update e tok decode mn st logits labs).total = st.total + logits.length := rfl

/-- `update` adds at most the batch size to `correct`. -/
lemma update_correct_le (e : ℚ → ℚ) (tok : String → List Nat)
    (decode : List Nat → String) (mn : String) (st : MetricState)
    (logits : List (List (List ℚ))) (labs : List (List Nat)) :
    (update e tok decode mn st logits labs).correct ≤ st.correct + logits.length := by
  have h := scanExamples_fst_le e tok (isAlpaca mn) (labs.map decode)
    (logits.map (selectPos (isAlpaca mn))) 0
  rw [List.length_map] at h
  simp only [update]
  omega

/-- `update` preserves `correct ≤ total`. -/
lemma update_preserves_le (e : ℚ → ℚ) (tok : String → List Nat)
    (decode : List Nat → String) (mn : String) (st : MetricState)
    (logits : List (List (List ℚ))) (labs : List (List Nat))
    (h : st.correct ≤ st.total) :
    (update e tok decode mn st logits labs).correct ≤
      (update e tok decode mn st logits labs).total := by
  have h1 := update_correct_le e tok decode mn st logits labs
  have h2 := update_total_eq e tok decode mn st logits labs
  omega

/-- The total counter after a pass is the starting total plus the sum of the
batch sizes. -/
lemma runPass_total (e : ℚ → ℚ) (tok : String → List Nat)
    (decode : List Nat → String) (mn : String) :
    ∀ (batches : List (List (List (List ℚ)) × List (List Nat))) (st : MetricState),
      (runPass e tok decode mn batches st).total =
        st.total + (batches.map fun b => b.1.length).sum := by
  intro batches
  induction batches with
  | nil => intro st; simp [runPass]
  | cons b bs ih =>
    intro st
    have hb := ih (update e tok decode mn st b.1 b.2)
    simp only [runPass, List.foldl_cons] at hb ⊢
    rw [hb, update_total_eq]
    simp [Nat.add_assoc]

/-- `correct ≤ total` is preserved across a whole pass. -/
lemma runPass_correct_le (e : ℚ → ℚ) (tok : String → List Nat)
    (decode : List Nat → String) (mn : String) :
    ∀ (batches : List (List (List (List ℚ)) × List (List Nat))) (st : MetricState),
      st.correct ≤ st.total →
      (runPass e tok decode mn batches st).correct ≤
        (runPass e tok decode mn batches st).total := by
  intro batches
  induction batches with
  | nil => intro st h; simpa [runPass] using h
  | cons b bs ih =>
    intro st h
    have hb := ih (update e tok decode mn st b.1 b.2)
      (update_preserves_le e tok decode mn st b.1 b.2 h)
    simpa only [runPass, List.foldl_cons] using hb

/-- C5: every `update` preserves `correct ≤ total`, and after one full pass
from the reset state the total equals the number of evaluated examples (the
sum of the batch sizes, `N` for a subject with `N` test rows) while `correct`
never exceeds it. -/
theorem C5_counter_invariants (e : ℚ → ℚ) (tok : String → List Nat)
    (decode : List Nat → String) (model_name : String) :
    (∀ (st : MetricState) (logits : List (List (List ℚ)))
        (labelsTok : List (List Nat)), st.correct ≤ st.total →
      (update e tok decode model_name st logits labelsTok).correct ≤
        (update e tok decode model_name st logits labelsTok).total) ∧
    (∀ batches : List (List (List (List ℚ)) × List (List Nat)),
      (runPass e tok decode model_name batches resetState).total =
        (batches.map fun b => b.1.length).sum ∧
      (runPass e tok decode model_name batches resetState).correct ≤
        (runPass e tok decode model_name batches resetState).total) := by
  refine ⟨fun st logits labelsTok h =>
    update_preserves_le e tok decode model_name st logits labelsTok h,
    fun batches => ⟨?_, ?_⟩⟩
  · rw [runPass_total]
    simp [resetState]
  · exact runPass_correct_le e tok decode model_name batches resetState
      (by simp [resetState])

/-- C5 witness: the preservation statement applied to a concrete state and
a concrete one-example batch. -/
theorem C5_counter_invariants_witness :
    (update (fun x => x) (fun _ => [0]) (fun _ => "A") "m"
        ⟨1, 1, [], []⟩ [[[(0 : ℚ)]]] [[0]]).correct ≤
      (update (fun x => x) (fun _ => [0]) (fun _ => "A") "m"
        ⟨1, 1, [], []⟩ [[[(0 : ℚ)]]] [[0]]).total :=
  (C5_counter_invariants (fun x => x) (fun _ => [0]) (fun _ => "A") "m").1
    ⟨1, 1, [], []⟩ [[[(0 : ℚ)]]] [[0]] (by decide)

/-- Summing a function over a fold that appends per-element contributions. -/
lemma foldl_append_map_sum {α β : Type} (f : α → List β) (g : β → ℚ) :
    ∀ (l : List α) (a : List β),
      ((l.foldl (fun acc x => acc ++ f x) a).map g).sum =
        (a.map g).sum + (l.map fun x => ((f x).map g).sum).sum := by
  intro l
  induction l with
  | nil => intro a; simp
  | cons x xs ih =>
    intro a
    simp only [List.foldl_cons, ih (a ++ f x), List.map_append, List.sum_append,
      List.map_cons, List.sum_cons]
    ring

/-- Summing a constant over a list. -/
lemma map_const_sum {α : Type} (L : List α) (q : ℚ) :
    ((L.map fun _ => q).sum) = (L.length : ℚ) * q := by
  induction L with
  | nil => simp
  | cons x xs ih => simp [ih]; ring

/-- If a list holds at most one element satisfying `q`, the number of such
elements is one when some element satisfies `q` and zero otherwise. -/
lemma filter_length_of_le_one (l : List String) (q : String → Bool)
    (h : (l.filter q).length ≤ 1) :
    ((l.filter q).length : ℚ) = if l.any q then 1 else 0 := by
  by_cases ha : l.any q
  · have : ∃ x ∈ l, q x = true := by simpa [List.any_eq_true] using ha
    obtain ⟨x, hx, hq⟩ := this
    have hmem : x ∈ l.filter q := List.mem_filter.2 ⟨hx, hq⟩
    have hpos : 0 < (l.filter q).length := List.length_pos.2 (List.ne_nil_of_mem hmem)
    have h1 : (l.filter q).length = 1 := by omega
    simp [h1, ha]
  · have hnil : l.filter q = [] := by
      rw [List.filter_eq_nil_iff]
      intro x hx hq
      exact ha (List.any_eq_true.2 ⟨x, hx, hq⟩)
    simp [hnil, ha]

/-- Summing an if-then-else over a list is summing over the filter. -/
lemma sum_map_ite {α : Type} (p : α → Bool) (g : α → ℚ) (l : List α) :
    (l.map fun x => if p x then g x else 0).sum = ((l.filter p).map g).sum := by
  induction l with
  | nil => simp
  | cons x xs ih => by_cases hp : p x <;> simp [List.filter_cons, hp, ih]

/-- Workhorse for the aggregation claims: the `(cor, total)` pairs appended
to a bucket sum, under any projection `g`, to the projected sum over the
subjects that map to the bucket — provided no subject maps to the bucket
twice. -/
lemma entries_pair_sum (q : String → Bool) (subcats : String → List String)
    (results : List SubjResult) (g : Nat × Nat → ℚ)
    (h : ∀ r ∈ results, ((subcats r.subject).filter q).length ≤ 1) :
    ((results.foldl
        (fun acc r => acc ++ ((subcats r.subject).filter q).map
          fun _ => (r.cor, r.total)) []).map g).sum =
      ((results.filter fun r => (subcats r.subject).any q).map
        fun r => g (r.cor, r.total)).sum := by
  rw [foldl_append_map_sum]
  simp only [List.map_nil, List.sum_nil, zero_add]
  have hcongr : results.map
      (fun r => ((((subcats r.subject).filter q).map fun _ => (r.cor, r.total)).map g).sum) =
      results.map fun r =>
        if (subcats r.subject).any q then g (r.cor, r.total) else 0 := by
    apply List.map_congr_left
    intro r hr
    rw [List.map_map]
    have : (g ∘ fun _ : String => (r.cor, r.total)) =
        fun _ : String => g (r.cor, r.total) := rfl
    rw [this, map_const_sum, filter_length_of_le_one _ _ (h r hr)]
    split <;> ring
  rw [hcongr, sum_map_ite]

/-- C3: the reported subcategory, category and overall accuracies each equal
the summed correct counts of the member subjects divided by the summed total
counts (counts summed first, one division per level); and on a concrete pair
of subjects this weighted mean differs from the arithmetic mean of the
member subjects' accuracies. -/
theorem C3_weighted_mean_aggregation (subcats cats : String → List String)
    (results : List SubjResult) (sc key : String)
    (hsc : ∀ r ∈ results, ((subcats r.subject).filter fun s => s == sc).length ≤ 1)
    (hkey : ∀ r ∈ results,
      ((subcats r.subject).filter fun s => (cats key).contains s).length ≤ 1) :
    subcatAcc subcats results sc =
      (((results.filter fun r => (subcats r.subject).any fun s => s == sc).map
          fun r => (r.cor : ℚ)).sum) /
      (((results.filter fun r => (subcats r.subject).any fun s => s == sc).map
          fun r => (r.total : ℚ)).sum) ∧
    catAcc subcats cats results key =
      (((results.filter fun r =>
            (subcats r.subject).any fun s => (cats key).contains s).map
          fun r => (r.cor : ℚ)).sum) /
      (((results.filter fun r =>
            (subcats r.subject).any fun s => (cats key).contains s).map
          fun r => (r.total : ℚ)).sum) ∧
    overallAcc results =
      ((results.map fun r => (r.cor : ℚ)).sum) /
        ((results.map fun r => (r.total : ℚ)).sum) ∧
    subcatAcc (fun _ => ["x"]) [⟨"s1", 1, 1⟩, ⟨"s2", 0, 3⟩] "x" ≠
      meanAcc (subcatEntries (fun _ => ["x"]) [⟨"s1", 1, 1⟩, ⟨"s2", 0, 3⟩] "x") := by
  refine ⟨?_, ?_, ?_, ?_⟩
  · unfold subcatAcc accOf subcatEntries subcatContrib
    rw [entries_pair_sum _ subcats results (fun p => (p.1 : ℚ)) hsc,
      entries_pair_sum _ subcats results (fun p => (p.2 : ℚ)) hsc]
  · unfold catAcc accOf catEntries catContrib
    rw [entries_pair_sum _ subcats results (fun p => (p.1 : ℚ)) hkey,
      entries_pair_sum _ subcats results (fun p => (p.2 : ℚ)) hkey]
  · unfold overallAcc accOf
    rw [List.map_map, List.map_map]
    rfl
  · unfold subcatAcc meanAcc accOf subcatEntries subcatContrib
    norm_num

/-- C3 witness: the subcategory identity instantiated on a concrete pair of
subjects mapped to one subcategory. -/
theorem C3_weighted_mean_aggregation_witness :
    subcatAcc (fun _ => ["x"]) [⟨"s1", 1, 1⟩, ⟨"s2", 0, 3⟩] "x" =
      ((([⟨"s1", 1, 1⟩, ⟨"s2", 0, 3⟩] : List SubjResult).filter
          (fun r => ((fun _ => ["x"]) r.subject).any fun s => s == "x")).map
        (fun r => (r.cor : ℚ))).sum /
      ((([⟨"s1", 1, 1⟩, ⟨"s2", 0, 3⟩] : List SubjResult).filter
          (fun r => ((fun _ => ["x"]) r.subject).any fun s => s == "x")).map
        (fun r => (r.total : ℚ))).sum :=
  (C3_weighted_mean_aggregation (fun _ => ["x"]) (fun _ => ["x"])
    [⟨"s1", 1, 1⟩, ⟨"s2", 0, 3⟩] "x" "k" (by decide) (by decide)).1

/-- C1 (the code's actual behaviour at the claimed edge case): the test-set
truncation loop has no floor at `k = 0` — when the rebuilt prompt exceeds the
token budget at every few-shot count, the loop never exits, for any amount of
fuel and from any starting count.  In particular, when even the zero-shot
prompt exceeds 2048 tokens the search does not stop at 0 with the zero-shot
prompt: `prepare_data` diverges instead. -/
theorem C1_trunc_loop_never_exits (tok : String → List Nat) (dev : Table)
    (subject : String) (promptEnd : String)
    (h : ∀ j : Int, budget < (tok (gen_prompt dev subject j ++ promptEnd)).length) :
    ∀ (fuel : Nat) (k : Int),
      truncLoop tok dev subject promptEnd fuel k
        (gen_prompt dev subject k ++ promptEnd) = none := by
  intro fuel
  induction fuel with
  | zero =>
    intro k
    rw [truncLoop, if_pos (h k)]
  | succ n ih =>
    intro k
    rw [truncLoop, if_pos (h k)]
    exact ih (k - 1)

/-- C1 witness: a tokenizer under which every prompt is 3000 tokens long
makes the truncation loop run out of any amount of fuel. -/
theorem C1_trunc_loop_never_exits_witness :
    truncLoop (fun _ => List.replicate 3000 0) [] "math" "" 5 3
      (gen_prompt [] "math" 3 ++ "") = none :=
  C1_trunc_loop_never_exits (fun _ => List.replicate 3000 0) [] "math" ""
    (by intro j; simp only [List.length_replicate, budget]; norm_num) 5 3

/-- C10: when the zero-shot prompt for a dev-set example exceeds the token
budget, the validation-set truncation loop never exits: each iteration
rebuilds the identical prompt `gen_prompt dev subject 0 ++ promptEnd` (the
few-shot count passed to the prompt generator is the constant `0`) while only
the unrelated stale `k` changes, so the loop condition never becomes false
for any fuel and any starting `k`. -/
theorem C10_val_loop_never_exits (tok : String → List Nat) (dev : Table)
    (subject : String) (promptEnd : String)
    (h : budget < (tok (gen_prompt dev subject 0 ++ promptEnd)).length) :
    ∀ (fuel : Nat) (k : Int),
      devLoop tok dev subject promptEnd fuel k
        (gen_prompt dev subject 0 ++ promptEnd) = none := by
  intro fuel
  induction fuel with
  | zero =>
    intro k
    rw [devLoop, if_pos h]
  | succ n ih =>
    intro k
    rw [devLoop, if_pos h]
    exact ih (k - 1)

/-- C10 witness: a tokenizer under which the zero-shot prompt is 3000 tokens
long makes the validation loop run out of any amount of fuel. -/
theorem C10_val_loop_never_exits_witness :
    devLoop (fun _ => List.replicate 3000 0) [] "math" "" 5 0
      (gen_prompt [] "math" 0 ++ "") = none :=
  C10_val_loop_never_exits (fun _ => List.replicate 3000 0) [] "math" ""
    (by simp only [List.length_replicate, budget]; norm_num) 5 0

/-- C8: supplying a prompt directory makes `prepare_data` raise
`NotImplementedError` unconditionally — for every tokenizer, table, subject,
few-shot count and fuel, i.e. before any prompt is built — while with no
prompt directory that error is unreachable (the result is always an `ok`). -/
theorem C8_prompt_dir_raises (tok : String → List Nat) (dev test : Table)
    (subject : String) (ntrain : Int) (fuel : Nat) :
    (∀ p : String,
      prepare_data tok dev test subject ntrain (some p) fuel =
        Except.error "NotImplementedError") ∧
    (∃ o, prepare_data tok dev test subject ntrain none fuel = Except.ok o) := by
  constructor
  · intro p
    rfl
  · cases hts : buildTestset tok dev test subject ntrain fuel with
    | none => exact ⟨none, by simp [prepare_data, hts]⟩
    | some tk =>
      obtain ⟨ts, k⟩ := tk
      cases hvs : buildValset tok dev subject k fuel with
      | none => exact ⟨none, by simp [prepare_data, hts, hvs]⟩
      | some vs => exact ⟨some (ts, vs), by simp [prepare_data, hts, hvs]⟩

/-- Every padded row produced by the modelled tokenizer call is at most
`maxLen` long. -/
lemma hfTokenizePad_row_le (tok : String → List Nat) (padId maxLen : Nat)
    (texts : List String) :
    ∀ row ∈ hfTokenizePad tok padId maxLen texts, row.length ≤ maxLen := by
  intro row hrow
  unfold hfTokenizePad at hrow
  simp only [List.mem_map] at hrow
  obtain ⟨ids, ⟨t, ht, rfl⟩, rfl⟩ := hrow
  have htake : ((tok t).take maxLen).length ≤ maxLen := by
    simp [List.length_take]
  have hfold : ∀ (l : List Nat) (a : Nat), a ≤ maxLen → (∀ x ∈ l, x ≤ maxLen) →
      l.foldl max a ≤ maxLen := by
    intro l
    induction l with
    | nil => intro a ha _; simpa using ha
    | cons x xs ih =>
      intro a ha hx
      simp only [List.foldl_cons]
      exact ih (max a x) (by
        have := hx x (by simp)
        omega) (fun y hy => hx y (by simp [hy]))
  have hlong : ((texts.map fun t => (tok t).take maxLen).map List.length).foldl
      max 0 ≤ maxLen := by
    apply hfold
    · omega
    · intro x hx
      simp only [List.mem_map] at hx
      obtain ⟨ids, ⟨u, hu, rfl⟩, rfl⟩ := hx
      simp [List.length_take]
  simp only [List.length_append, List.length_replicate]
  omega

/-- C9: every sequence in the collated, padded batch — inputs and label
targets alike — is at most 512 tokens long, and the collated batch is
unchanged when the tokenizer is replaced by its truncation to the first 512
tokens: everything beyond the 512th token of a prompt is discarded before
inference. -/
theorem C9_collate_512_truncation (tok : String → List Nat) (padId : Nat)
    (batch : List Item) :
    (∀ row ∈ (collate_fn tok padId batch).1, row.length ≤ 512) ∧
    (∀ row ∈ (collate_fn tok padId batch).2, row.length ≤ 512) ∧
    collate_fn tok padId batch =
      collate_fn (fun s => (tok s).take 512) padId batch := by
  refine ⟨hfTokenizePad_row_le tok padId 512 _,
    hfTokenizePad_row_le tok padId 512 _, ?_⟩
  unfold collate_fn hfTokenizePad
  simp [List.take_take]

/-- C9 witness: a concrete three-token row from a collated batch is within
the 512-token bound. -/
theorem C9_collate_512_truncation_witness :
    ([1, 2, 3] : List Nat).length ≤ 512 :=
  (C9_collate_512_truncation (fun _ => [1, 2, 3]) 0 [⟨"a", "b"⟩]).1
    [1, 2, 3] (by decide)

end MMLU
